import Mathlib

/-!
Verification development for the treasure-hunt game server (`src/server.js`).

The server keeps all game state in module-level variables (`players`,
`treasures`, `gameInProgress`, `gameTimer`, the three interval handles) and
mutates it from socket handlers (`joinGame`, `move`, `disconnect`) and from
timers (`gameLoop` tick, `spawnTreasure` interval, the one-second countdown,
and the 10-second `setTimeout` scheduled by `endGame`).

This file gives a shallow embedding of that code:
* pure functions (`gameLoop`'s collision pass, `getLeaderboard`,
  `spawnTreasure`, the winner scan of `endGame`) become Lean functions;
* the stateful server becomes an explicit `ServerState` and a `step`
  function over inbound events; scheduled timers are modelled as a list of
  (timer id, kind) pairs, a firing of an id not in the list is a no-op
  (that is `clearInterval`), and the randomness of `Math.random` /
  `Date.now` (spawn positions, treasure ids, fallback names) is supplied
  as event payloads.

JavaScript numbers are modelled as `ℚ` (coordinates, where only order
comparisons matter) and `Nat` / `Int` (scores, timer).  The collision test
`Math.sqrt(dx*dx + dz*dz) < 1.5` is embedded as `dx^2 + dz^2 < 9/4`, which
is equivalent for real arithmetic since both sides of the original
comparison are nonnegative and squaring is strictly monotone there.
-/

namespace TreasureHunt

set_option maxRecDepth 1000000

/-- A player record, as built in the `joinGame` handler:
`{ id, name, x, y, z, score }`. -/
structure Player where
  pid : String
  name : String
  x : ℚ
  y : ℚ
  z : ℚ
  score : Nat
deriving DecidableEq

/-- A treasure record, as built in `spawnTreasure`: `{ id, x, y, z }`. -/
structure Treasure where
  tid : String
  x : ℚ
  y : ℚ
  z : ℚ
deriving DecidableEq

/-- Rational subtraction written through `mkRat`.  `ratSub_eq` proves it
equal to `Sub.sub` on `ℚ`; it is used instead of `-` only so that concrete
collision tests evaluate inside the kernel (the library's `Rat.sub` is
sealed against unfolding). -/
def ratSub (a b : ℚ) : ℚ :=
  mkRat (a.num * b.den - b.num * a.den) (a.den * b.den)

/-- Rational multiplication written through `mkRat`; `ratMul_eq` proves it
equal to `Mul.mul` on `ℚ`. -/
def ratMul (a b : ℚ) : ℚ :=
  mkRat (a.num * b.num) (a.den * b.den)

/-- Rational addition written through `mkRat`; `ratAdd_eq` proves it equal
to `Add.add` on `ℚ`. -/
def ratAdd (a b : ℚ) : ℚ :=
  mkRat (a.num * b.den + b.num * a.den) (a.den * b.den)

/-- The collision test of `gameLoop`:
`Math.sqrt((player.x-treasure.x)^2 + (player.z-treasure.z)^2) < 1.5`,
embedded equivalently as the squared comparison `dx*dx + dz*dz < 9/4`
(both sides of the original comparison are nonnegative and squaring is
strictly monotone on nonnegatives).  `collides_iff` restates it with the
ordinary field operations. -/
def collides (p : Player) (t : Treasure) : Bool :=
  decide (ratAdd (ratMul (ratSub p.x t.x) (ratSub p.x t.x))
    (ratMul (ratSub p.z t.z) (ratSub p.z t.z)) < mkRat 9 4)

/-- One player's pass over the treasure array, mirroring
`treasures.forEach((treasure, index) => { ... treasures.splice(index, 1) })`
in `gameLoop`.  `forEach` visits indices `k = 0, 1, ...` of the *current*
array (a `splice` at the visited index shifts later elements down while `k`
still advances), and stops once `k` is past the current length.  `k`
strictly increases and the list never grows, so `ts.length` steps of fuel
are exactly enough: when the fuel runs out, `k ≥ ts.length` already holds
and the fuel branch returns the same answer as the index-guard branch. -/
def collectFrom (p : Player) : Nat → Nat → List Treasure → Player × List Treasure
  | _, 0, ts => (p, ts)
  | k, fuel + 1, ts =>
    if h : k < ts.length then
      let t := ts.get ⟨k, h⟩
      if collides p t then
        collectFrom { p with score := p.score + 1 } (k + 1) fuel (ts.eraseIdx k)
      else
        collectFrom p (k + 1) fuel ts
    else (p, ts)

/-- The whole `treasures.forEach` callback run for one player: starts at
index 0 on the current treasure list. -/
def tickPlayer (p : Player) (ts : List Treasure) : Player × List Treasure :=
  collectFrom p 0 ts.length ts

/-- The collision-detection phase of `gameLoop`:
`for (const playerId in players) { ... }` in insertion order, each player
running the `forEach` pass over the treasure list as mutated so far. -/
def gameLoopPlayers : List (String × Player) → List Treasure →
    List (String × Player) × List Treasure
  | [], ts => ([], ts)
  | (sid, p) :: rest, ts =>
    let r := tickPlayer p ts
    let r' := gameLoopPlayers rest r.2
    ((sid, r.1) :: r'.1, r'.2)

/-- `spawnTreasure`: `if (treasures.length >= 20) return;` then pushes the
new treasure (whose random position and id are the parameter here). -/
def spawnTreasure (t : Treasure) (ts : List Treasure) : List Treasure :=
  if 20 ≤ ts.length then ts else ts ++ [t]

/-- Stable descending insertion by score.  `getLeaderboard` uses
`Array.prototype.sort((a, b) => b.score - a.score)`, which is a stable sort
ordering by score descending; a stable sort is modelled by insertion of
each element in input order before the first already-placed element of
lower-or-equal score. -/
def insertByScore (p : Player) : List Player → List Player
  | [] => [p]
  | q :: rest =>
    if q.score ≤ p.score then p :: q :: rest else q :: insertByScore p rest

/-- The stable descending-by-score sort used by `getLeaderboard`. -/
def sortByScoreDesc : List Player → List Player
  | [] => []
  | p :: rest => insertByScore p (sortByScoreDesc rest)

/-- `getLeaderboard()`: `Object.values(players)` in insertion order, stable
sort by score descending, `slice(0, 5)`, project to `{ name, score }`. -/
def getLeaderboard (pl : List (String × Player)) : List (String × Nat) :=
  ((sortByScoreDesc (pl.map Prod.snd)).take 5).map (fun p => (p.name, p.score))

/-- The winner scan of `endGame`:
`let winner = null; let highScore = -1;`
`for (const id in players) if (players[id].score > highScore) { ... }`. -/
def findWinner : Option Player → Int → List (String × Player) → Option Player × Int
  | w, hs, [] => (w, hs)
  | w, hs, (_, p) :: rest =>
    if hs < (p.score : Int) then findWinner (some p) (p.score : Int) rest
    else findWinner w hs rest

/-- The round-over payload broadcast by `endGame`
(post-separator variant, lines 269–286):
`io.emit('gameOver', winner ? { name: winner.name, score: winner.score }`
`                           : { name: 'No one', score: 0 })`. -/
def endGameMessage (pl : List (String × Player)) : String × Int :=
  match (findWinner none (-1) pl).1 with
  | some w => (w.name, (w.score : Int))
  | none => ("No one", 0)

/-- Kinds of scheduled timers in the server: the `gameLoop` interval, the
`spawnTreasure` interval, the one-second countdown interval, and the
10-second `setTimeout` scheduled by `endGame` that may restart the round. -/
inductive TimerKind
  | tick
  | spawnItems
  | countdown
  | graceRestart
deriving DecidableEq

/-- The whole mutable server state.  `scheduled` is the set of currently
scheduled timers (a fired or cleared timer is removed from it); the three
`Option Nat` fields are the JS interval-handle variables, which keep their
old value even after `clearInterval`.  `emits` logs the `gameOver`
broadcasts. -/
structure ServerState where
  players : List (String × Player)
  treasures : List Treasure
  gameInProgress : Bool
  gameTimer : Int
  gameLoopInterval : Option Nat
  treasureSpawnInterval : Option Nat
  countdownInterval : Option Nat
  scheduled : List (Nat × TimerKind)
  nextTid : Nat
  connected : List String
  emits : List (String × Int)
deriving DecidableEq

/-- The initial module state of `server.js`. -/
def initState : ServerState :=
  { players := []
    treasures := []
    gameInProgress := false
    gameTimer := 60
    gameLoopInterval := none
    treasureSpawnInterval := none
    countdownInterval := none
    scheduled := []
    nextTid := 0
    connected := []
    emits := [] }

/-- Lookup in the insertion-ordered `players` object. -/
def lookupP (sid : String) : List (String × Player) → Option Player
  | [] => none
  | (k, p) :: rest => if k = sid then some p else lookupP sid rest

/-- `players[sid] = p`: overwriting an existing key keeps its position,
a new key is appended at the end (JS object insertion order). -/
def setPlayer (sid : String) (p : Player) :
    List (String × Player) → List (String × Player)
  | [] => [(sid, p)]
  | (k, q) :: rest =>
    if k = sid then (k, p) :: rest else (k, q) :: setPlayer sid p rest

/-- `delete players[sid]`. -/
def erasePlayer (sid : String) : List (String × Player) → List (String × Player)
  | [] => []
  | (k, q) :: rest => if k = sid then rest else (k, q) :: erasePlayer sid rest

/-- Which kind of timer, if any, is scheduled under this id. -/
def lookupTimer (tid : Nat) : List (Nat × TimerKind) → Option TimerKind
  | [] => none
  | (k, kd) :: rest => if k = tid then some kd else lookupTimer tid rest

/-- `clearInterval(handle)`: removes the timer named by the handle from the
schedule; `clearInterval(undefined)` is a no-op. -/
def clearIntervalOpt (h : Option Nat) (sch : List (Nat × TimerKind)) :
    List (Nat × TimerKind) :=
  match h with
  | none => sch
  | some t => sch.filter (fun x => x.1 != t)

/-- The score-reset loop of `startGame`:
`for (const id in players) players[id].score = 0;`. -/
def resetScores (pl : List (String × Player)) : List (String × Player) :=
  pl.map (fun kp => (kp.1, { kp.2 with score := 0 }))

/-- `startGame()`: sets `gameInProgress`, resets the timer to 60, clears
the treasures, zeroes all scores, installs fresh `gameLoop`, spawn and
countdown intervals (overwriting the handle variables WITHOUT clearing the
previously tracked intervals, exactly as the source does), and spawns one
treasure immediately.  `t` is the treasure that the immediate
`spawnTreasure()` call would randomly create. -/
def startGame (t : Treasure) (s : ServerState) : ServerState :=
  { s with
    gameInProgress := true
    gameTimer := 60
    treasures := spawnTreasure t []
    players := resetScores s.players
    gameLoopInterval := some s.nextTid
    treasureSpawnInterval := some (s.nextTid + 1)
    countdownInterval := some (s.nextTid + 2)
    scheduled := s.scheduled ++
      [(s.nextTid, TimerKind.tick), (s.nextTid + 1, TimerKind.spawnItems),
       (s.nextTid + 2, TimerKind.countdown)]
    nextTid := s.nextTid + 3 }

/-- `endGame()`: stops the round, clears the three tracked intervals,
broadcasts the winner message, and schedules the 10-second restart
`setTimeout` — which is never cancelled anywhere in the source. -/
def endGame (s : ServerState) : ServerState :=
  { s with
    gameInProgress := false
    scheduled :=
      (clearIntervalOpt s.countdownInterval
        (clearIntervalOpt s.treasureSpawnInterval
          (clearIntervalOpt s.gameLoopInterval s.scheduled))) ++
      [(s.nextTid, TimerKind.graceRestart)]
    nextTid := s.nextTid + 1
    emits := s.emits ++ [endGameMessage s.players] }

/-- `gameLoop()`: the collision-detection pass over every player.  Note
that the source has NO `gameInProgress` guard here; the broadcast of the
`gameState` snapshot has no effect on the modelled state. -/
def gameLoopStep (s : ServerState) : ServerState :=
  { s with
    players := (gameLoopPlayers s.players s.treasures).1
    treasures := (gameLoopPlayers s.players s.treasures).2 }

/-- One firing of the countdown interval: `gameTimer--` and `endGame()`
once it reaches zero. -/
def countdownStep (s : ServerState) : ServerState :=
  if s.gameTimer - 1 ≤ 0 then endGame { s with gameTimer := s.gameTimer - 1 }
  else { s with gameTimer := s.gameTimer - 1 }

/-- The body of the `setTimeout` scheduled by `endGame`: drop players whose
socket is gone, then restart if anyone is left.  `t` is the treasure the
restarted round would immediately spawn. -/
def graceRestartStep (t : Treasure) (s : ServerState) : ServerState :=
  let pl := s.players.filter (fun kp => s.connected.contains kp.1)
  if pl.isEmpty then { s with players := pl }
  else startGame t { s with players := pl }

/-- The `joinGame` handler: build the player record (random spawn position
and fallback name as payload, `y = 0.5` fixed), store it under the socket
id, and `if (!gameInProgress && Object.keys(players).length > 0)` start the
round, spawning `t`. -/
def joinStep (sid pname fallback : String) (px pz : ℚ) (t : Treasure)
    (s : ServerState) : ServerState :=
  let newName := if pname = "" then fallback else pname
  let newP : Player :=
    { pid := sid, name := newName, x := px, y := mkRat 1 2, z := pz, score := 0 }
  let s1 := { s with players := setPlayer sid newP s.players }
  if !s1.gameInProgress && !s1.players.isEmpty then startGame t s1 else s1

/-- The `move` handler: update the player's position if the id is known,
otherwise do nothing. -/
def moveStep (sid : String) (px py pz : ℚ) (s : ServerState) : ServerState :=
  match lookupP sid s.players with
  | none => s
  | some p =>
    { s with players := setPlayer sid { p with x := px, y := py, z := pz } s.players }

/-- The `disconnect` handler: remove the socket and its player; if no
player is left, stop the game, clear the three tracked intervals and the
treasures.  The pending `endGame` `setTimeout` is NOT cancelled here. -/
def disconnectStep (sid : String) (s : ServerState) : ServerState :=
  let s1 := { s with
    connected := s.connected.erase sid
    players := erasePlayer sid s.players }
  if s1.players.isEmpty then
    { s1 with
      gameInProgress := false
      scheduled :=
        clearIntervalOpt s1.countdownInterval
          (clearIntervalOpt s1.treasureSpawnInterval
            (clearIntervalOpt s1.gameLoopInterval s1.scheduled))
      treasures := [] }
  else s1

/-- A timer firing: a no-op unless the id is still scheduled.  The
`graceRestart` timeout is one-shot, so it removes itself; the three
intervals stay scheduled until cleared. -/
def fireStep (tid : Nat) (t : Treasure) (s : ServerState) : ServerState :=
  match lookupTimer tid s.scheduled with
  | none => s
  | some TimerKind.tick => gameLoopStep s
  | some TimerKind.spawnItems => { s with treasures := spawnTreasure t s.treasures }
  | some TimerKind.countdown => countdownStep s
  | some TimerKind.graceRestart =>
    graceRestartStep t { s with scheduled := s.scheduled.filter (fun x => x.1 != tid) }

/-- Inbound events: socket connect/disconnect, the two client intents, and
timer firings.  Payloads carry the results of `Math.random` / `Date.now`
(spawn coordinates, fallback names, treasures to spawn). -/
inductive Event
  | connect (sid : String)
  | joinGame (sid pname fallback : String) (px pz : ℚ) (t : Treasure)
  | move (sid : String) (px py pz : ℚ)
  | disconnect (sid : String)
  | fire (tid : Nat) (t : Treasure)
deriving DecidableEq

/-- The serialized event-loop dispatch of the server. -/
def step (s : ServerState) (e : Event) : ServerState :=
  match e with
  | Event.connect sid => { s with connected := s.connected ++ [sid] }
  | Event.joinGame sid pname fb px pz t => joinStep sid pname fb px pz t s
  | Event.move sid px py pz => moveStep sid px py pz s
  | Event.disconnect sid => disconnectStep sid s
  | Event.fire tid t => fireStep tid t s

/-- Run a sequence of events from a state. -/
def run (s : ServerState) (es : List Event) : ServerState :=
  es.foldl step s

/-- Freshness of an interval-handle variable with respect to the timer-id
allocation counter: an unset handle is trivially fresh, a set one must
name an already-allocated id.  This holds in every reachable state (ids
are allocated from the monotone counter `nextTid`) and is the hypothesis
under which a deactivating step is proved to deschedule its intervals. -/
def handleLt (h : Option Nat) (n : Nat) : Bool :=
  match h with
  | none => true
  | some t => decide (t < n)

/-- Whether an event makes the server call `startGame` from this state: a
`joinGame` while no round is in progress, or the grace-period timeout
firing while some connected player remains. -/
def roundStarting (s : ServerState) : Event → Bool
  | Event.joinGame _ _ _ _ _ _ => !s.gameInProgress
  | Event.fire tid _ =>
    (lookupTimer tid s.scheduled == some TimerKind.graceRestart) &&
      !(s.players.filter (fun kp => s.connected.contains kp.1)).isEmpty
  | _ => false

/-- Whether an event is a `joinGame` for an identity that is already
registered (the handler then overwrites the existing record). -/
def isRejoin (s : ServerState) : Event → Bool
  | Event.joinGame sid _ _ _ _ _ => (lookupP sid s.players).isSome
  | _ => false

/-! ### Concrete inputs used by the counterexample and witness theorems -/

/-- A treasure at the arena origin. -/
def tOrigin : Treasure := { tid := "tA", x := 0, y := mkRat 1 2, z := 0 }

/-- A treasure away from the origin. -/
def tFar : Treasure := { tid := "tB", x := 3, y := mkRat 1 2, z := 3 }

/-- Another treasure away from the origin. -/
def tFar2 : Treasure := { tid := "tC", x := 5, y := mkRat 1 2, z := 5 }

/-- A player standing at the origin with score 0. -/
def pAnn : Player := { pid := "p1", name := "Ann", x := 0, y := mkRat 1 2, z := 0, score := 0 }

/-- A treasure exactly under `pAnn`. -/
def tHit1 : Treasure := { tid := "t1", x := 0, y := mkRat 1 2, z := 0 }

/-- A second treasure 0.1 units from `pAnn`, well inside the 1.5 radius. -/
def tHit2 : Treasure := { tid := "t2", x := mkRat 1 10, y := mkRat 1 2, z := 0 }

/-- Round 1 is played by "A" to its timeout (60 countdown firings, timer
ids 0–2, grace timeout id 3), then "B" joins during the grace period,
starting round 2 (timer ids 4–6), whose countdown fires once. -/
def evStale : List Event :=
  [Event.connect "A", Event.joinGame "A" "Ann" "fb" 0 0 tOrigin] ++
  List.replicate 60 (Event.fire 2 tFar) ++
  [Event.connect "B", Event.joinGame "B" "Bob" "fb" 3 3 tFar, Event.fire 6 tFar2]

/-- The state with round 2 active at 59 seconds and the round-1 grace
timeout (id 3) still scheduled. -/
def sStale : ServerState := run initState evStale

/-- Round 1 is played by "A" to its timeout, after which "A" — the last
remaining player — disconnects mid-grace-period. -/
def evGone : List Event :=
  [Event.connect "A", Event.joinGame "A" "Ann" "fb" 0 0 tOrigin] ++
  List.replicate 60 (Event.fire 2 tFar) ++ [Event.disconnect "A"]

/-- The forced-Idle state right after the last player disconnected. -/
def sGone : ServerState := run initState evGone

/-- From `sGone`, "B" joins (starting a fresh round with timer ids 4–6)
and that round's countdown fires once. -/
def sGoneJoined : ServerState :=
  run sGone [Event.connect "B", Event.joinGame "B" "Bob" "fb" 3 3 tFar, Event.fire 6 tFar2]

/-- A registry with a tie for the highest score: Ann 3, Bob 5, Cy 5
(the spec's scenario "A score=3, B score=5 → roundOver reports B"). -/
def plTie : List (String × Player) :=
  [("a", { pid := "a", name := "Ann", x := 0, y := 0, z := 0, score := 3 }),
   ("b", { pid := "b", name := "Bob", x := 1, y := 0, z := 1, score := 5 }),
   ("c", { pid := "c", name := "Cy", x := 2, y := 0, z := 2, score := 5 })]

/-- A registry in which every player still has score 0. -/
def plZero : List (String × Player) :=
  [("a", { pid := "a", name := "Ann", x := 0, y := 0, z := 0, score := 0 }),
   ("b", { pid := "b", name := "Bob", x := 1, y := 0, z := 1, score := 0 })]

/-- A state whose countdown is one second from firing `endGame`. -/
def sCountdownDone : ServerState := { initState with gameTimer := 1 }

/-- A treasure list already at the population cap. -/
def tsFull : List Treasure := List.replicate 20 tFar

/-- An Idle state (no round in progress) with a player standing on a live
treasure. -/
def sIdleNearTreasure : ServerState :=
  { initState with players := [("p1", pAnn)], treasures := [tHit1] }

/-- The Active state right after the first player joined (interval ids
0–2 live, one treasure spawned). -/
def sActive : ServerState :=
  run initState [Event.connect "A", Event.joinGame "A" "Ann" "fb" 0 0 tOrigin]

/-- Mid-round state in which "A" has already collected one treasure:
join at the origin onto `tOrigin`, then one tick firing. -/
def sScored : ServerState :=
  run initState
    [Event.connect "A", Event.joinGame "A" "Ann" "fb" 0 0 tOrigin, Event.fire 0 tFar]

/-! ### Helper lemmas -/

theorem ratSub_eq (a b : ℚ) : ratSub a b = a - b :=
  (Rat.sub_def' a b).symm

theorem ratAdd_eq (a b : ℚ) : ratAdd a b = a + b :=
  (Rat.add_def' a b).symm

theorem ratMul_eq (a b : ℚ) : ratMul a b = a * b := by
  rw [ratMul, Rat.mul_def, Rat.normalize_eq_mkRat]

/-- The collision test, restated with the ordinary field operations of
`ℚ`: it holds exactly when the squared horizontal distance is below
`(1.5)^2 = 9/4`. -/
theorem collides_iff (p : Player) (t : Treasure) :
    collides p t = true ↔
      (p.x - t.x) ^ 2 + (p.z - t.z) ^ 2 < (9 : ℚ) / 4 := by
  have h94 : (mkRat 9 4 : ℚ) = (9 : ℚ) / 4 := by
    rw [Rat.mkRat_eq_div]
    norm_num
  simp [collides, ratAdd_eq, ratMul_eq, ratSub_eq, h94, sq]

theorem eraseIdx_length_le {α : Type} (l : List α) (k : Nat) :
    (l.eraseIdx k).length ≤ l.length := by
  induction l generalizing k with
  | nil => simp [List.eraseIdx]
  | cons a rest ih =>
    cases k with
    | zero => simp [List.eraseIdx]
    | succ k =>
      simpa [List.eraseIdx] using Nat.succ_le_succ (ih k)

theorem collectFrom_length_le (fuel : Nat) :
    ∀ (k : Nat) (p : Player) (ts : List Treasure),
      (collectFrom p k fuel ts).2.length ≤ ts.length := by
  induction fuel with
  | zero => intro k p ts; simp [collectFrom]
  | succ n ih =>
    intro k p ts
    simp only [collectFrom]
    split
    · split
      · exact le_trans (ih _ _ _) (eraseIdx_length_le ts k)
      · exact ih _ _ _
    · exact le_refl _

theorem collectFrom_score_le (fuel : Nat) :
    ∀ (k : Nat) (p : Player) (ts : List Treasure),
      p.score ≤ (collectFrom p k fuel ts).1.score := by
  induction fuel with
  | zero => intro k p ts; simp [collectFrom]
  | succ n ih =>
    intro k p ts
    simp only [collectFrom]
    split
    · split
      · exact le_trans (Nat.le_succ _)
          (ih (k + 1) { p with score := p.score + 1 } _)
      · exact ih (k + 1) _ _
    · exact le_refl _

theorem gameLoopPlayers_length_le :
    ∀ (pl : List (String × Player)) (ts : List Treasure),
      (gameLoopPlayers pl ts).2.length ≤ ts.length := by
  intro pl
  induction pl with
  | nil => intro ts; simp [gameLoopPlayers]
  | cons kp rest ih =>
    intro ts
    obtain ⟨sid, p⟩ := kp
    simp only [gameLoopPlayers]
    exact le_trans (ih _) (collectFrom_length_le _ _ _ _)

theorem gameLoopPlayers_lookup_score :
    ∀ (pl : List (String × Player)) (ts : List Treasure) (sid : String) (p : Player),
      lookupP sid pl = some p →
      ∃ q, lookupP sid (gameLoopPlayers pl ts).1 = some q ∧ p.score ≤ q.score := by
  intro pl
  induction pl with
  | nil => intro ts sid p h; simp [lookupP] at h
  | cons kp rest ih =>
    intro ts sid p h
    obtain ⟨sid0, p0⟩ := kp
    simp only [gameLoopPlayers, lookupP]
    simp only [lookupP] at h
    by_cases hs : sid0 = sid
    · subst hs
      simp at h
      subst h
      refine ⟨(tickPlayer p0 ts).1, by simp [lookupP], ?_⟩
      simpa [tickPlayer] using collectFrom_score_le ts.length 0 p0 ts
    · simp [hs] at h ⊢
      exact ih _ sid p h

/-- Invariant of the `endGame` winner scan: starting from a current best
`w` (with `highScore = w.score`), the scan either keeps `w` because nobody
strictly beats it, or returns the first element that strictly beats both
`w` and everything before that element, and which nothing after it
strictly beats. -/
theorem findWinner_inv (l : List (String × Player)) :
    ∀ w : Player,
      (findWinner (some w) (w.score : Int) l = (some w, (w.score : Int)) ∧
        ∀ q ∈ l.map Prod.snd, q.score ≤ w.score) ∨
      (∃ l₁ sid p l₂, l = l₁ ++ (sid, p) :: l₂ ∧
        findWinner (some w) (w.score : Int) l = (some p, (p.score : Int)) ∧
        w.score < p.score ∧
        (∀ q ∈ l₁.map Prod.snd, q.score < p.score) ∧
        (∀ q ∈ l₂.map Prod.snd, q.score ≤ p.score)) := by
  induction l with
  | nil =>
    intro w
    left
    exact ⟨rfl, by simp⟩
  | cons kp rest ih =>
    intro w
    obtain ⟨sid0, q0⟩ := kp
    by_cases hlt : w.score < q0.score
    · have hstep : findWinner (some w) (w.score : Int) ((sid0, q0) :: rest) =
          findWinner (some q0) (q0.score : Int) rest := by
        have h : ((w.score : Int) < (q0.score : Int)) := by exact_mod_cast hlt
        simp [findWinner, h]
      rcases ih q0 with ⟨heq, hall⟩ | ⟨l₁, sid, p, l₂, hl, heq, hpl, h₁, h₂⟩
      · right
        exact ⟨[], sid0, q0, rest, by simp, by rw [hstep, heq], hlt, by simp, hall⟩
      · right
        refine ⟨(sid0, q0) :: l₁, sid, p, l₂, by simp [hl], by rw [hstep, heq],
          lt_trans hlt hpl, ?_, h₂⟩
        intro q hq
        simp only [List.map_cons, List.mem_cons] at hq
        rcases hq with hq | hq
        · subst hq; exact hpl
        · exact h₁ q hq
    · have hle : q0.score ≤ w.score := Nat.le_of_not_lt hlt
      have hstep : findWinner (some w) (w.score : Int) ((sid0, q0) :: rest) =
          findWinner (some w) (w.score : Int) rest := by
        have h : ¬((w.score : Int) < (q0.score : Int)) := by exact_mod_cast hlt
        simp [findWinner, h]
      rcases ih w with ⟨heq, hall⟩ | ⟨l₁, sid, p, l₂, hl, heq, hpl, h₁, h₂⟩
      · left
        refine ⟨by rw [hstep, heq], ?_⟩
        intro q hq
        simp only [List.map_cons, List.mem_cons] at hq
        rcases hq with hq | hq
        · subst hq; exact hle
        · exact hall q hq
      · right
        refine ⟨(sid0, q0) :: l₁, sid, p, l₂, by simp [hl], by rw [hstep, heq],
          hpl, ?_, h₂⟩
        intro q hq
        simp only [List.map_cons, List.mem_cons] at hq
        rcases hq with hq | hq
        · subst hq; exact lt_of_le_of_lt hle hpl
        · exact h₁ q hq

/-- The winner reported by `endGame` for a nonempty registry: the first
player whose score strictly exceeds every earlier player's and is not
strictly exceeded by any later player's. -/
theorem endGameMessage_char (pl : List (String × Player)) (h : pl ≠ []) :
    ∃ l₁ sid w l₂, pl = l₁ ++ (sid, w) :: l₂ ∧
      endGameMessage pl = (w.name, (w.score : Int)) ∧
      (∀ q ∈ l₁.map Prod.snd, q.score < w.score) ∧
      (∀ q ∈ l₂.map Prod.snd, q.score ≤ w.score) := by
  obtain ⟨⟨sid0, p0⟩, rest, rfl⟩ : ∃ kp rest, pl = kp :: rest := by
    cases pl with
    | nil => exact absurd rfl h
    | cons kp rest => exact ⟨kp, rest, rfl⟩
  have hneg : ((-1 : Int) < (p0.score : Int)) :=
    lt_of_lt_of_le (by norm_num) (Int.ofNat_zero_le _)
  have hstep : findWinner none (-1) ((sid0, p0) :: rest) =
      findWinner (some p0) (p0.score : Int) rest := by
    simp [findWinner, hneg]
  rcases findWinner_inv rest p0 with ⟨heq, hall⟩ | ⟨l₁, sid, p, l₂, hl, heq, hpl, h₁, h₂⟩
  · refine ⟨[], sid0, p0, rest, by simp, ?_, by simp, hall⟩
    simp [endGameMessage, hstep, heq]
  · refine ⟨(sid0, p0) :: l₁, sid, p, l₂, by simp [hl], ?_, ?_, h₂⟩
    · simp [endGameMessage, hstep, heq]
    · intro q hq
      simp only [List.map_cons, List.mem_cons] at hq
      rcases hq with hq | hq
      · subst hq; exact hpl
      · exact h₁ q hq

theorem spawnTreasure_length_le (t : Treasure) (ts : List Treasure)
    (h : ts.length ≤ 20) : (spawnTreasure t ts).length ≤ 20 := by
  rw [spawnTreasure]
  split
  · exact h
  · rename_i hlt
    simp only [List.length_append, List.length_cons, List.length_nil]
    omega

theorem mem_insertByScore (a p : Player) (l : List Player) :
    a ∈ insertByScore p l ↔ a = p ∨ a ∈ l := by
  induction l with
  | nil => simp [insertByScore]
  | cons q rest ih =>
    simp only [insertByScore]
    split
    · simp [List.mem_cons]
    · simp only [List.mem_cons, ih]
      tauto

theorem pairwise_insertByScore (p : Player) (l : List Player)
    (h : List.Pairwise (fun a b : Player => b.score ≤ a.score) l) :
    List.Pairwise (fun a b : Player => b.score ≤ a.score) (insertByScore p l) := by
  induction l with
  | nil => simp [insertByScore]
  | cons q rest ih =>
    rw [List.pairwise_cons] at h
    simp only [insertByScore]
    split
    · rename_i hq
      rw [List.pairwise_cons]
      refine ⟨?_, List.pairwise_cons.mpr h⟩
      intro b hb
      rcases List.mem_cons.mp hb with hb | hb
      · subst hb; exact hq
      · exact le_trans (h.1 b hb) hq
    · rename_i hq
      rw [List.pairwise_cons]
      refine ⟨?_, ih h.2⟩
      intro b hb
      rcases (mem_insertByScore b p rest).mp hb with hb | hb
      · subst hb; exact le_of_lt (Nat.lt_of_not_le hq)
      · exact h.1 b hb

theorem pairwise_sortByScoreDesc (l : List Player) :
    List.Pairwise (fun a b : Player => b.score ≤ a.score) (sortByScoreDesc l) := by
  induction l with
  | nil => simp [sortByScoreDesc]
  | cons p rest ih => exact pairwise_insertByScore p _ ih

theorem filter_insertByScore (p : Player) (l : List Player) (n : Nat) :
    (insertByScore p l).filter (fun q => q.score == n) =
      if p.score == n then p :: l.filter (fun q => q.score == n)
      else l.filter (fun q => q.score == n) := by
  induction l with
  | nil =>
    simp only [insertByScore, List.filter_cons, List.filter_nil]
  | cons q rest ih =>
    simp only [insertByScore]
    split
    · simp only [List.filter_cons]
    · rename_i hq
      have hqp : p.score < q.score := Nat.lt_of_not_le hq
      simp only [List.filter_cons, ih]
      by_cases hp : p.score = n
      · have hqn : (q.score == n) = false := by
          have hne : q.score ≠ n := by omega
          exact beq_eq_false_iff_ne.mpr hne
        have hpn : (p.score == n) = true := by simp [hp]
        simp [hqn, hpn]
      · have hpn : (p.score == n) = false := beq_eq_false_iff_ne.mpr hp
        simp [hpn]

/-- Stability of the leaderboard sort: for every score value, the sorted
list keeps exactly the players having that score, in their original
(join) order. -/
theorem filter_sortByScoreDesc (l : List Player) (n : Nat) :
    (sortByScoreDesc l).filter (fun q => q.score == n) =
      l.filter (fun q => q.score == n) := by
  induction l with
  | nil => rfl
  | cons p rest ih =>
    simp only [sortByScoreDesc, filter_insertByScore, ih, List.filter_cons]

theorem lookupTimer_filter_self (t : Nat) (sch : List (Nat × TimerKind)) :
    lookupTimer t (sch.filter (fun x => x.1 != t)) = none := by
  induction sch with
  | nil => rfl
  | cons x rest ih =>
    obtain ⟨k, kd⟩ := x
    rw [List.filter_cons]
    by_cases hk : k = t
    · simpa [hk] using ih
    · simpa [hk, lookupTimer] using ih

theorem lookupTimer_filter_none (a : Nat) (f : Nat × TimerKind → Bool)
    (sch : List (Nat × TimerKind)) (h : lookupTimer a sch = none) :
    lookupTimer a (sch.filter f) = none := by
  induction sch with
  | nil => rfl
  | cons x rest ih =>
    obtain ⟨k, kd⟩ := x
    simp only [lookupTimer] at h
    by_cases hk : k = a
    · simp [hk] at h
    · simp only [hk, if_false] at h
      rw [List.filter_cons]
      split
      · simpa [lookupTimer, hk] using ih h
      · exact ih h

theorem lookupTimer_clear_none (h : Option Nat) (a : Nat)
    (sch : List (Nat × TimerKind)) (ha : lookupTimer a sch = none) :
    lookupTimer a (clearIntervalOpt h sch) = none := by
  cases h with
  | none => exact ha
  | some t => exact lookupTimer_filter_none a _ sch ha

theorem lookupTimer_clear_self (t : Nat) (sch : List (Nat × TimerKind)) :
    lookupTimer t (clearIntervalOpt (some t) sch) = none :=
  lookupTimer_filter_self t sch

theorem lookupTimer_append_single (a b : Nat) (kd : TimerKind)
    (sch : List (Nat × TimerKind)) (h : lookupTimer a sch = none) (hab : b ≠ a) :
    lookupTimer a (sch ++ [(b, kd)]) = none := by
  induction sch with
  | nil => simp [lookupTimer, hab]
  | cons x rest ih =>
    obtain ⟨k, kd0⟩ := x
    simp only [lookupTimer] at h
    by_cases hk : k = a
    · simp [hk] at h
    · simp only [hk, if_false] at h
      simpa [List.cons_append, lookupTimer, hk] using ih h

/-- After clearing all three interval handles (in the order the source
does it), none of the ids they named remains scheduled. -/
theorem lookupTimer_clear3 (g sp cd : Option Nat) (sch : List (Nat × TimerKind)) :
    (∀ t0, g = some t0 →
      lookupTimer t0 (clearIntervalOpt cd (clearIntervalOpt sp (clearIntervalOpt g sch))) = none) ∧
    (∀ t0, sp = some t0 →
      lookupTimer t0 (clearIntervalOpt cd (clearIntervalOpt sp (clearIntervalOpt g sch))) = none) ∧
    (∀ t0, cd = some t0 →
      lookupTimer t0 (clearIntervalOpt cd (clearIntervalOpt sp (clearIntervalOpt g sch))) = none) := by
  refine ⟨?_, ?_, ?_⟩
  · intro t0 hg
    rw [hg]
    exact lookupTimer_clear_none cd _ _
      (lookupTimer_clear_none sp _ _ (lookupTimer_clear_self t0 sch))
  · intro t0 hsp
    rw [hsp]
    exact lookupTimer_clear_none cd _ _ (lookupTimer_clear_self t0 _)
  · intro t0 hcd
    rw [hcd]
    exact lookupTimer_clear_self t0 _

theorem setPlayer_isEmpty (sid : String) (p : Player)
    (pl : List (String × Player)) : (setPlayer sid p pl).isEmpty = false := by
  cases pl with
  | nil => rfl
  | cons x rest =>
    obtain ⟨k, q⟩ := x
    simp only [setPlayer]
    split <;> rfl

theorem lookupP_setPlayer_self (sid : String) (p : Player)
    (pl : List (String × Player)) : lookupP sid (setPlayer sid p pl) = some p := by
  induction pl with
  | nil => simp [setPlayer, lookupP]
  | cons x rest ih =>
    obtain ⟨k, q⟩ := x
    simp only [setPlayer]
    by_cases hk : k = sid
    · simp [hk, lookupP]
    · simp [hk, lookupP, ih]

theorem lookupP_setPlayer_ne (sid sid0 : String) (p : Player)
    (pl : List (String × Player)) (h : sid ≠ sid0) :
    lookupP sid (setPlayer sid0 p pl) = lookupP sid pl := by
  induction pl with
  | nil => simp [setPlayer, lookupP, Ne.symm h]
  | cons x rest ih =>
    obtain ⟨k, q⟩ := x
    simp only [setPlayer]
    by_cases hk : k = sid0
    · subst hk
      simp [lookupP, Ne.symm h]
    · by_cases hks : k = sid <;> simp [hk, hks, h, lookupP, ih]

theorem lookupP_erasePlayer_ne (sid sid0 : String)
    (pl : List (String × Player)) (h : sid ≠ sid0) :
    lookupP sid (erasePlayer sid0 pl) = lookupP sid pl := by
  induction pl with
  | nil => rfl
  | cons x rest ih =>
    obtain ⟨k, q⟩ := x
    simp only [erasePlayer]
    by_cases hk : k = sid0
    · subst hk
      simp [lookupP, Ne.symm h]
    · by_cases hks : k = sid <;> simp [hk, hks, h, lookupP, ih]

theorem lookupP_none_of_not_mem (sid : String) (pl : List (String × Player))
    (h : sid ∉ pl.map Prod.fst) : lookupP sid pl = none := by
  induction pl with
  | nil => rfl
  | cons x rest ih =>
    obtain ⟨k, q⟩ := x
    simp only [List.map_cons, List.mem_cons] at h
    push_neg at h
    simp [lookupP, Ne.symm h.1, ih h.2]

theorem lookupP_erasePlayer_self (sid : String) (pl : List (String × Player))
    (hnd : (pl.map Prod.fst).Nodup) : lookupP sid (erasePlayer sid pl) = none := by
  induction pl with
  | nil => rfl
  | cons x rest ih =>
    obtain ⟨k, q⟩ := x
    simp only [List.map_cons, List.nodup_cons] at hnd
    simp only [erasePlayer]
    by_cases hk : k = sid
    · subst hk
      rw [if_pos rfl]
      exact lookupP_none_of_not_mem k rest hnd.1
    · simp [lookupP, hk, ih hnd.2]

theorem resetScores_score (pl : List (String × Player)) :
    ∀ kp ∈ resetScores pl, kp.2.score = 0 := by
  intro kp hk
  simp only [resetScores, List.mem_map] at hk
  obtain ⟨x, hx, rfl⟩ := hk
  rfl

theorem countdownStep_players (s : ServerState) :
    (countdownStep s).players = s.players := by
  rw [countdownStep]
  split <;> rfl

/-! ### Claim theorems -/

/-- C1.  The claim says every item surviving a tick is outside the
collision radius of every player at that tick.  The code violates this:
`gameLoop` splices the treasure array while `forEach` is iterating it, so
after a treasure at index `k` is collected the element that shifts into
index `k` is skipped.  Concretely, with one player at the origin and two
treasures both within 0.1 of the player, the tick collects only the first:
the post-tick live set still contains `tHit2`, which is within the
collision radius of `pAnn` (horizontal distance 0.1 < 1.5). -/
theorem c1_tick_skips_in_range_item :
    (gameLoopPlayers [("p1", pAnn)] [tHit1, tHit2]).2 = [tHit2] ∧
    collides pAnn tHit2 = true ∧
    (gameLoopPlayers [("p1", pAnn)] [tHit1, tHit2]).1 =
      [("p1", { pAnn with score := 1 })] := by
  decide

/-- C3.  The claim says every timer carries the round generation and a
stale firing is a no-op, so a timer from a previous round never mutates a
new round.  The code has no generation counter at all, and the 10-second
`setTimeout` scheduled by `endGame` is never cancelled.  In the trace
`evStale`, round 1 (timers 0–2) times out, "B" joins during the grace
period and starts round 2 (timers 4–6, timer at 59 after one countdown
firing), and then the stale round-1 grace timeout (id 3) fires: it calls
`startGame` again, resetting the running round's timer from 59 back to 60,
zeroing mid-round scores, replacing the treasure set, and installing a
third set of intervals (ids 7–9) while round 2's intervals 4–6 stay
scheduled but are no longer tracked by any handle. -/
theorem c3_stale_timer_mutates_new_round :
    sStale.gameInProgress = true ∧
    sStale.gameTimer = 59 ∧
    lookupTimer 3 sStale.scheduled = some TimerKind.graceRestart ∧
    (step sStale (Event.fire 3 tFar2)).gameTimer = 60 ∧
    (step sStale (Event.fire 3 tFar2)).gameLoopInterval = some 7 ∧
    (step sStale (Event.fire 3 tFar2)).scheduled.length = 6 ∧
    lookupTimer 4 (step sStale (Event.fire 3 tFar2)).scheduled =
      some TimerKind.tick := by
  decide

/-- C4.  The claim says that when the last player disconnects, all active
timers including any pending scheduled task are cancelled together so that
none fires afterward.  The disconnect handler clears only the three
interval handles; the pending `endGame` `setTimeout` (id 3 in the trace
`evGone`) stays scheduled after the forced return to Idle, and it does
fire afterward: once "B" has joined and a fresh round is running at 59
seconds, the leftover timeout fires and resets that round's timer to 60
(restarting it and leaking its intervals). -/
theorem c4_pending_timeout_survives_disconnect :
    sGone.gameInProgress = false ∧
    sGone.players = [] ∧
    sGone.treasures = [] ∧
    sGone.scheduled = [(3, TimerKind.graceRestart)] ∧
    sGoneJoined.gameInProgress = true ∧
    sGoneJoined.gameTimer = 59 ∧
    (step sGoneJoined (Event.fire 3 tFar2)).gameTimer = 60 ∧
    (step sGoneJoined (Event.fire 3 tFar2)).scheduled.length = 6 := by
  decide

/-- C2.  When the countdown reaches zero, `endGame` broadcasts a
round-over message carrying the winner's name and score; the winner is the
player with strictly highest score, ties going to the first-seen player in
iteration order (strictly above everyone earlier, at least everyone
later); with no players registered the sentinel `"No one"` (score 0) is
broadcast. -/
theorem c2_round_over_broadcast :
    (∀ s : ServerState, (endGame s).emits = s.emits ++ [endGameMessage s.players]) ∧
    (∀ s : ServerState, s.gameTimer - 1 ≤ 0 →
      (countdownStep s).emits = s.emits ++ [endGameMessage s.players]) ∧
    endGameMessage [] = ("No one", 0) ∧
    (∀ pl : List (String × Player), pl ≠ [] →
      ∃ l₁ sid w l₂, pl = l₁ ++ (sid, w) :: l₂ ∧
        endGameMessage pl = (w.name, (w.score : Int)) ∧
        (∀ q ∈ l₁.map Prod.snd, q.score < w.score) ∧
        (∀ q ∈ l₂.map Prod.snd, q.score ≤ w.score)) := by
  refine ⟨fun s => rfl, fun s h => ?_, rfl, fun pl h => endGameMessage_char pl h⟩
  simp [countdownStep, h, endGame]

/-- Witness for C2 at concrete inputs: with Ann 3, Bob 5, Cy 5 the message
reports a player strictly above all earlier and at least all later players
(Bob), and a countdown firing at 1 second appends exactly that message. -/
theorem c2_round_over_broadcast_witness :
    (plTie ≠ [] ∧
      ∃ l₁ sid w l₂, plTie = l₁ ++ (sid, w) :: l₂ ∧
        endGameMessage plTie = (w.name, (w.score : Int)) ∧
        (∀ q ∈ l₁.map Prod.snd, q.score < w.score) ∧
        (∀ q ∈ l₂.map Prod.snd, q.score ≤ w.score)) ∧
    (sCountdownDone.gameTimer - 1 ≤ 0 ∧
      (countdownStep sCountdownDone).emits =
        sCountdownDone.emits ++ [endGameMessage sCountdownDone.players]) :=
  ⟨⟨by decide, c2_round_over_broadcast.2.2.2 plTie (by decide)⟩,
   ⟨by decide, c2_round_over_broadcast.2.1 sCountdownDone (by decide)⟩⟩

/-- C10.  With at least one registered player the announced winner is an
actual registered player, never the `"No one"` sentinel: the scan starts
from `highScore = -1`, so even a score of 0 beats it. -/
theorem c10_nonempty_always_has_winner (pl : List (String × Player))
    (h : pl ≠ []) :
    ∃ sid w, (sid, w) ∈ pl ∧ endGameMessage pl = (w.name, (w.score : Int)) := by
  obtain ⟨l₁, sid, w, l₂, hl, hmsg, -, -⟩ := endGameMessage_char pl h
  exact ⟨sid, w, by rw [hl]; exact List.mem_append_right _ (List.mem_cons_self _ _), hmsg⟩

/-- Witness for C10: with two players both at score 0, the winner is a
registered player (Ann, the first seen), not the sentinel. -/
theorem c10_nonempty_always_has_winner_witness :
    plZero ≠ [] ∧
    ∃ sid w, (sid, w) ∈ plZero ∧ endGameMessage plZero = (w.name, (w.score : Int)) :=
  ⟨by decide, c10_nonempty_always_has_winner plZero (by decide)⟩

/-- C6.  For every registry (including the empty one) the leaderboard has
at most 5 entries, is sorted by score descending, is stable for ties (for
each score value the sorted pool keeps the players in join order), equals
the projection of the first five entries of the stably sorted player pool,
returns `[]` on the empty registry, and — being a pure function of the
registry — yields identical output on two calls with no intervening
mutation. -/
theorem c6_leaderboard_spec (pl : List (String × Player)) :
    (getLeaderboard pl).length ≤ 5 ∧
    List.Pairwise (fun a b : String × Nat => b.2 ≤ a.2) (getLeaderboard pl) ∧
    (∀ n : Nat, (sortByScoreDesc (pl.map Prod.snd)).filter (fun q => q.score == n) =
      (pl.map Prod.snd).filter (fun q => q.score == n)) ∧
    getLeaderboard pl =
      ((sortByScoreDesc (pl.map Prod.snd)).take 5).map (fun p => (p.name, p.score)) ∧
    getLeaderboard ([] : List (String × Player)) = [] ∧
    getLeaderboard pl = getLeaderboard pl := by
  refine ⟨?_, ?_, fun n => filter_sortByScoreDesc _ n, rfl, rfl, rfl⟩
  · simp only [getLeaderboard, List.length_map, List.length_take]
    omega
  · rw [getLeaderboard, List.pairwise_map]
    exact List.Pairwise.sublist (List.take_sublist 5 _) (pairwise_sortByScoreDesc _)

/-- C7.  The live item population never exceeds 20: `spawnTreasure` is a
no-op whenever the count is already 20 (or more), and every event the
server processes — join, move, disconnect, and every timer firing (tick,
spawn, countdown/round-end, grace restart) — preserves the bound. -/
theorem c7_item_cap :
    (∀ (t : Treasure) (ts : List Treasure), 20 ≤ ts.length →
      spawnTreasure t ts = ts) ∧
    (∀ (s : ServerState) (e : Event), s.treasures.length ≤ 20 →
      (step s e).treasures.length ≤ 20) := by
  constructor
  · intro t ts h
    simp [spawnTreasure, h]
  · intro s e h
    cases e with
    | connect sid => simpa [step] using h
    | joinGame sid pname fb px pz t =>
      simp only [step, joinStep]
      split <;> split <;>
        first
          | simpa using h
          | simp [startGame, spawnTreasure]
    | move sid px py pz =>
      simp only [step, moveStep]
      cases lookupP sid s.players <;> simpa using h
    | disconnect sid =>
      simp only [step, disconnectStep]
      split
      · simp
      · simpa using h
    | fire tid t =>
      simp only [step, fireStep]
      cases hlt : lookupTimer tid s.scheduled with
      | none => simpa using h
      | some kd =>
        cases kd with
        | tick =>
          simpa [gameLoopStep] using
            le_trans (gameLoopPlayers_length_le s.players s.treasures) h
        | spawnItems => simpa using spawnTreasure_length_le t s.treasures h
        | countdown =>
          simp only [countdownStep]
          split
          · simpa [endGame] using h
          · simpa using h
        | graceRestart =>
          simp only [graceRestartStep]
          split
          · simpa using h
          · simp [startGame, spawnTreasure]

/-- Witness for C7: spawning onto a full list of 20 treasures changes
nothing, and a step from the initial state keeps the bound. -/
theorem c7_item_cap_witness :
    (20 ≤ tsFull.length ∧ spawnTreasure tOrigin tsFull = tsFull) ∧
    (initState.treasures.length ≤ 20 ∧
      (step initState (Event.fire 0 tOrigin)).treasures.length ≤ 20) :=
  ⟨⟨by decide, c7_item_cap.1 tOrigin tsFull (by decide)⟩,
   ⟨by decide, c7_item_cap.2 initState (Event.fire 0 tOrigin) (by decide)⟩⟩

/-- C5 counterexample.  The claim says the simulation tick, applied to a
state in which the round is not Active, has no effect.  `gameLoop` has no
`gameInProgress` guard: applied to an Idle state with a player standing on
a live treasure, it increments the player's score and removes the item. -/
theorem c5_tick_outside_active_mutates :
    sIdleNearTreasure.gameInProgress = false ∧
    sIdleNearTreasure.players.map (fun kp => kp.2.score) = [0] ∧
    (gameLoopStep sIdleNearTreasure).players.map (fun kp => kp.2.score) = [1] ∧
    sIdleNearTreasure.treasures = [tHit1] ∧
    (gameLoopStep sIdleNearTreasure).treasures = [] := by
  decide

/-- C5 amended.  The tick function itself is unguarded; what the code does
ensure is that every single step that turns the round from Active to
not-Active (the countdown reaching zero, or the last player disconnecting)
removes the three tracked interval ids from the schedule in that same
step, and a timer id that is not scheduled is a no-op when it fires.  The
`handleLt` hypotheses say the tracked handles name already-allocated timer
ids, which holds in every reachable state. -/
theorem c5_leaving_active_cancels_intervals (s : ServerState) (e : Event)
    (h1 : handleLt s.gameLoopInterval s.nextTid = true)
    (h2 : handleLt s.treasureSpawnInterval s.nextTid = true)
    (h3 : handleLt s.countdownInterval s.nextTid = true)
    (hpre : s.gameInProgress = true)
    (hpost : (step s e).gameInProgress = false) :
    ((∀ tid, (step s e).gameLoopInterval = some tid →
        lookupTimer tid (step s e).scheduled = none) ∧
     (∀ tid, (step s e).treasureSpawnInterval = some tid →
        lookupTimer tid (step s e).scheduled = none) ∧
     (∀ tid, (step s e).countdownInterval = some tid →
        lookupTimer tid (step s e).scheduled = none)) ∧
    (∀ (u : ServerState) (tid : Nat) (tr : Treasure),
      lookupTimer tid u.scheduled = none → step u (Event.fire tid tr) = u) := by
  refine ⟨?_, fun u tid tr hu => by simp [step, fireStep, hu]⟩
  cases e with
  | connect sid =>
    exact absurd hpost (by simp [step, hpre])
  | move sid px py pz =>
    exfalso
    simp only [step, moveStep] at hpost
    cases hlp : lookupP sid s.players <;> simp [hlp, hpre] at hpost
  | joinGame sid pname fb px pz t =>
    exfalso
    simp only [step, joinStep] at hpost
    simp [hpre, startGame] at hpost
  | disconnect sid =>
    simp only [step, disconnectStep] at hpost ⊢
    by_cases hemp : (erasePlayer sid s.players).isEmpty
    · simp only [hemp, if_true, ite_true] at hpost ⊢
      obtain ⟨hg, hsp, hcd⟩ :=
        lookupTimer_clear3 s.gameLoopInterval s.treasureSpawnInterval
          s.countdownInterval s.scheduled
      exact ⟨fun tid htid => hg tid htid, fun tid htid => hsp tid htid,
        fun tid htid => hcd tid htid⟩
    · exfalso
      simp [hemp, hpre] at hpost
  | fire tid t =>
    cases hlt : lookupTimer tid s.scheduled with
    | none =>
      exfalso
      simp [step, fireStep, hlt, hpre] at hpost
    | some kd =>
      cases kd with
      | tick =>
        exfalso
        simp [step, fireStep, hlt, gameLoopStep, hpre] at hpost
      | spawnItems =>
        exfalso
        simp [step, fireStep, hlt, hpre] at hpost
      | graceRestart =>
        exfalso
        simp only [step, fireStep, hlt, graceRestartStep] at hpost
        split at hpost
        · simp [hpre] at hpost
        · simp [startGame] at hpost
      | countdown =>
        simp only [step, fireStep, hlt, countdownStep] at hpost ⊢
        by_cases htm : s.gameTimer - 1 ≤ 0
        · simp only [htm, if_true, endGame] at hpost ⊢
          obtain ⟨hg, hsp, hcd⟩ :=
            lookupTimer_clear3 s.gameLoopInterval s.treasureSpawnInterval
              s.countdownInterval s.scheduled
          refine ⟨?_, ?_, ?_⟩
          · intro tid0 htid
            refine lookupTimer_append_single _ _ _ _ (hg tid0 htid) ?_
            rw [htid] at h1
            simp only [handleLt, decide_eq_true_eq] at h1
            omega
          · intro tid0 htid
            refine lookupTimer_append_single _ _ _ _ (hsp tid0 htid) ?_
            rw [htid] at h2
            simp only [handleLt, decide_eq_true_eq] at h2
            omega
          · intro tid0 htid
            refine lookupTimer_append_single _ _ _ _ (hcd tid0 htid) ?_
            rw [htid] at h3
            simp only [handleLt, decide_eq_true_eq] at h3
            omega
        · exfalso
          simp [htm, hpre] at hpost

/-- Witness for C5 amended: in the Active state right after the first
join, the last player's disconnect deactivates the round and leaves none
of the tracked interval ids scheduled. -/
theorem c5_leaving_active_cancels_intervals_witness :
    (handleLt sActive.gameLoopInterval sActive.nextTid = true ∧
     handleLt sActive.treasureSpawnInterval sActive.nextTid = true ∧
     handleLt sActive.countdownInterval sActive.nextTid = true ∧
     sActive.gameInProgress = true ∧
     (step sActive (Event.disconnect "A")).gameInProgress = false) ∧
    (((∀ tid, (step sActive (Event.disconnect "A")).gameLoopInterval = some tid →
        lookupTimer tid (step sActive (Event.disconnect "A")).scheduled = none) ∧
      (∀ tid, (step sActive (Event.disconnect "A")).treasureSpawnInterval = some tid →
        lookupTimer tid (step sActive (Event.disconnect "A")).scheduled = none) ∧
      (∀ tid, (step sActive (Event.disconnect "A")).countdownInterval = some tid →
        lookupTimer tid (step sActive (Event.disconnect "A")).scheduled = none)) ∧
     (∀ (u : ServerState) (tid : Nat) (tr : Treasure),
       lookupTimer tid u.scheduled = none → step u (Event.fire tid tr) = u)) :=
  ⟨⟨by decide, by decide, by decide, by decide, by decide⟩,
   c5_leaving_active_cancels_intervals sActive (Event.disconnect "A")
     (by decide) (by decide) (by decide) (by decide) (by decide)⟩

/-- C8 counterexample.  The claim says no operation between round start
and round end decreases a player's score.  A repeated `joinGame` from the
same socket mid-round overwrites the record with a fresh score-0 one: in
the reachable trace behind `sScored`, "A" has score 1 with the round
Active, and a second `joinGame` from "A" drops it to 0 — while
`gameInProgress` stays true throughout, so no round start happened. -/
theorem c8_rejoin_resets_score_mid_round :
    sScored.gameInProgress = true ∧
    (lookupP "A" sScored.players).map Player.score = some 1 ∧
    (step sScored (Event.joinGame "A" "Ann" "fb" 0 0 tFar)).gameInProgress = true ∧
    (lookupP "A"
      (step sScored (Event.joinGame "A" "Ann" "fb" 0 0 tFar)).players).map
        Player.score = some 0 := by
  decide

/-- C8 amended.  Excluding re-joins by an already-registered identity
(which overwrite the record with a fresh score-0 one), scores never
decrease outside round starts: any event that makes the server call
`startGame` leaves every registered score at exactly 0, and any other
event maps each surviving registered player to a score at least as large
as before (the tick only increments scores; move, connect, disconnect and
non-restarting timer firings never lower any surviving player's score).
The `Nodup` hypothesis says registry keys are distinct, which every
reachable state satisfies. -/
theorem c8_score_monotone_outside_restarts (s : ServerState) (e : Event)
    (hnd : (s.players.map Prod.fst).Nodup) :
    (roundStarting s e = true →
      ∀ kp ∈ (step s e).players, kp.2.score = 0) ∧
    (roundStarting s e = false → isRejoin s e = false →
      ∀ sid p q, lookupP sid s.players = some p →
        lookupP sid (step s e).players = some q → p.score ≤ q.score) := by
  constructor
  · intro hrs
    cases e with
    | connect sid => simp [roundStarting] at hrs
    | move sid px py pz => simp [roundStarting] at hrs
    | disconnect sid => simp [roundStarting] at hrs
    | joinGame sid pname fb px pz t =>
      have hg : s.gameInProgress = false := by
        simpa [roundStarting] using hrs
      simp only [step, joinStep, hg, setPlayer_isEmpty, Bool.not_false,
        Bool.and_self, if_true, ite_true, startGame]
      exact resetScores_score _
    | fire tid t =>
      rw [roundStarting, Bool.and_eq_true] at hrs
      obtain ⟨hgr, hne⟩ := hrs
      rw [beq_iff_eq] at hgr
      rw [Bool.not_eq_true'] at hne
      simp only [step, fireStep, hgr, graceRestartStep, hne,
        Bool.false_eq_true, if_false, ite_false, startGame]
      exact resetScores_score _
  · intro hrs hrj sid p q hp hq
    cases e with
    | connect sid0 =>
      have hq2 : lookupP sid s.players = some q := hq
      rw [hp] at hq2
      injection hq2 with hpq
      rw [hpq]
    | joinGame sid0 pname fb px pz t =>
      have hg : s.gameInProgress = true := by
        simpa [roundStarting] using hrs
      have hnone : lookupP sid0 s.players = none := by
        cases h0 : lookupP sid0 s.players with
        | none => rfl
        | some p0 => simp [isRejoin, h0] at hrj
      simp [step, joinStep, hg] at hq
      by_cases hss : sid = sid0
      · subst hss
        rw [hnone] at hp
        cases hp
      · rw [lookupP_setPlayer_ne sid sid0 _ _ hss] at hq
        rw [hp] at hq
        injection hq with hpq
        rw [hpq]
    | move sid0 px py pz =>
      simp only [step, moveStep] at hq
      cases hl0 : lookupP sid0 s.players with
      | none =>
        rw [hl0] at hq
        have hq2 : lookupP sid s.players = some q := hq
        rw [hp] at hq2
        injection hq2 with hpq
        rw [hpq]
      | some p0 =>
        rw [hl0] at hq
        by_cases hss : sid = sid0
        · subst hss
          rw [hp] at hl0
          injection hl0 with hp0
          rw [lookupP_setPlayer_self] at hq
          injection hq with hqe
          rw [← hqe, ← hp0]
        · rw [lookupP_setPlayer_ne sid sid0 _ _ hss] at hq
          rw [hp] at hq
          injection hq with hpq
          rw [hpq]
    | disconnect sid0 =>
      have hplayers : (step s (Event.disconnect sid0)).players =
          erasePlayer sid0 s.players := by
        simp only [step, disconnectStep]
        split <;> rfl
      rw [hplayers] at hq
      by_cases hss : sid = sid0
      · subst hss
        rw [lookupP_erasePlayer_self _ _ hnd] at hq
        cases hq
      · rw [lookupP_erasePlayer_ne sid sid0 _ hss] at hq
        rw [hp] at hq
        injection hq with hpq
        rw [hpq]
    | fire tid t =>
      cases hlt : lookupTimer tid s.scheduled with
      | none =>
        simp only [step, fireStep, hlt] at hq
        rw [hp] at hq
        injection hq with hpq
        rw [hpq]
      | some kd =>
        cases kd with
        | tick =>
          simp only [step, fireStep, hlt, gameLoopStep] at hq
          obtain ⟨q', hq', hle⟩ :=
            gameLoopPlayers_lookup_score s.players s.treasures sid p hp
          have : some q' = some q := hq'.symm.trans hq
          injection this with hqq
          rw [← hqq]
          exact hle
        | spawnItems =>
          simp only [step, fireStep, hlt] at hq
          have hq2 : lookupP sid s.players = some q := hq
          rw [hp] at hq2
          injection hq2 with hpq
          rw [hpq]
        | countdown =>
          have hpl : (step s (Event.fire tid t)).players = s.players := by
            simp only [step, fireStep, hlt]
            exact countdownStep_players s
          rw [hpl, hp] at hq
          injection hq with hpq
          rw [hpq]
        | graceRestart =>
          have hemp :
              (s.players.filter (fun kp => s.connected.contains kp.1)).isEmpty = true := by
            have h0 := hrs
            simp only [roundStarting, hlt] at h0
            simpa using h0
          have hnil : s.players.filter (fun kp => s.connected.contains kp.1) = [] :=
            List.isEmpty_iff.mp hemp
          simp only [step, fireStep, hlt, graceRestartStep, hnil] at hq
          simp [lookupP] at hq

/-- Witness for C8 amended: in the Active state after the first join, a
`move` intent (no round start, not a re-join) never lowers the player's
score, and the round-starting join itself left every score at 0. -/
theorem c8_score_monotone_outside_restarts_witness :
    ((initState.players.map Prod.fst).Nodup ∧
      roundStarting initState (Event.joinGame "A" "Ann" "fb" 0 0 tOrigin) = true ∧
      ∀ kp ∈ (step initState (Event.joinGame "A" "Ann" "fb" 0 0 tOrigin)).players,
        kp.2.score = 0) ∧
    ((sScored.players.map Prod.fst).Nodup ∧
      roundStarting sScored (Event.move "A" 2 0 2) = false ∧
      isRejoin sScored (Event.move "A" 2 0 2) = false ∧
      ∀ sid p q, lookupP sid sScored.players = some p →
        lookupP sid (step sScored (Event.move "A" 2 0 2)).players = some q →
        p.score ≤ q.score) :=
  ⟨⟨by decide,
    by decide,
    (c8_score_monotone_outside_restarts initState
      (Event.joinGame "A" "Ann" "fb" 0 0 tOrigin) (by decide)).1 (by decide)⟩,
   ⟨by decide,
    by decide,
    by decide,
    (c8_score_monotone_outside_restarts sScored
      (Event.move "A" 2 0 2) (by decide)).2 (by decide) (by decide)⟩⟩

/-- C9.  A `joinGame` processed while no round is in progress (in
particular the first player joining from Idle) starts a round: afterwards
the round is Active, the remaining time is exactly 60, the item set was
cleared and exactly the one immediately spawned item exists, and every
registered player's score is 0. -/
theorem c9_join_when_idle_starts_round (s : ServerState)
    (sid pname fb : String) (px pz : ℚ) (t : Treasure)
    (h : s.gameInProgress = false) :
    (step s (Event.joinGame sid pname fb px pz t)).gameInProgress = true ∧
    (step s (Event.joinGame sid pname fb px pz t)).gameTimer = 60 ∧
    (step s (Event.joinGame sid pname fb px pz t)).treasures = [t] ∧
    ∀ kp ∈ (step s (Event.joinGame sid pname fb px pz t)).players,
      kp.2.score = 0 := by
  simp only [step, joinStep, h, setPlayer_isEmpty, Bool.not_false,
    Bool.and_self, if_true, ite_true, startGame]
  refine ⟨trivial, trivial, ?_, resetScores_score _⟩
  simp [spawnTreasure]

/-- Witness for C9: "A" joining the initial Idle state yields an Active
round with 60 seconds, exactly the spawned treasure, and score 0. -/
theorem c9_join_when_idle_starts_round_witness :
    initState.gameInProgress = false ∧
    ((step initState (Event.joinGame "A" "Ann" "fb" 0 0 tOrigin)).gameInProgress = true ∧
     (step initState (Event.joinGame "A" "Ann" "fb" 0 0 tOrigin)).gameTimer = 60 ∧
     (step initState (Event.joinGame "A" "Ann" "fb" 0 0 tOrigin)).treasures = [tOrigin] ∧
     ∀ kp ∈ (step initState (Event.joinGame "A" "Ann" "fb" 0 0 tOrigin)).players,
       kp.2.score = 0) :=
  ⟨by decide,
   c9_join_when_idle_starts_round initState "A" "Ann" "fb" 0 0 tOrigin (by decide)⟩

end TreasureHunt
